import Mathlib

/-!
Verification of the data-cleaning and query pipeline of the Indian startup
funding dashboard (DataProcessor in utils/data_processor.py).

The pipeline is shallowly embedded: raw tabular input becomes a `RawFrame`
(column names plus rows of cells), `process_data` becomes a function from
`RawFrame` to `Except SchemaError (List Event)`, and each query operation
becomes a Lean function over `List Event`.  Machine floats are modelled by
rationals, pandas timestamps by a numeric date encoding, and pandas string
operations by their ASCII counterparts.
-/

namespace StartupIntel

/-! ### Python title-casing, embedded for ASCII text -/

/-- One character of Python title-casing: a letter is upper-cased when the
previous character was not a letter and lower-cased otherwise; non-letters
pass through. -/
def titleTransform (prevAlpha : Bool) (c : Char) : Char :=
  if c.isAlpha then (if prevAlpha then c.toLower else c.toUpper) else c

def titleAux : Bool → List Char → List Char
  | _, [] => []
  | prevAlpha, c :: cs => titleTransform prevAlpha c :: titleAux c.isAlpha cs

/-- Embedding of the pandas `.str.title()` step applied to the city column. -/
def pythonTitle (s : String) : String := String.mk (titleAux false s.data)

/-! ### City canonicalization

`process_data` title-cases the city column and then applies a fixed alias
table with pandas `replace`, which substitutes exact full-string matches.
-/

def city_mapping : List (String × String) :=
  [("Bengaluru", "Bangalore"),
   ("Kormangala", "Bangalore"),
   ("Gurgaon", "Gurugram"),
   ("New Delhi", "Delhi"),
   ("Noida", "Delhi NCR"),
   ("Faridabad", "Delhi NCR")]

/-- Pandas scalar `replace` over a mapping: an exact match is substituted,
anything else passes through. -/
def applyReplace (m : List (String × String)) (s : String) : String :=
  match m.lookup s with
  | some t => t
  | none => s

/-- The full city canonicalization step of `process_data`: title-casing
followed by the alias table. -/
def normalizeCity (c : String) : String := applyReplace city_mapping (pythonTitle c)

/-! ### Elementary string operations

Structural (kernel-computable) counterparts of the Python string
operations the pipeline uses, working on the character list of a
string. -/

/-- Python `str.strip()`: drop leading and trailing whitespace. -/
def trimStr (s : String) : String :=
  String.mk (((s.data.dropWhile Char.isWhitespace).reverse.dropWhile Char.isWhitespace).reverse)

/-- Python `str.lower()` for ASCII text. -/
def toLowerStr (s : String) : String := String.mk (s.data.map Char.toLower)

/-- Python `str.split(sep)` for a one-character separator: splitting the
empty string yields one empty field, and consecutive separators yield
empty fields. -/
def splitOnChar (sep : Char) : List Char → List (List Char)
  | [] => [[]]
  | c :: cs =>
    if c == sep then [] :: splitOnChar sep cs
    else
      match splitOnChar sep cs with
      | t :: ts => (c :: t) :: ts
      | [] => [[c]]

def splitStr (sep : Char) (s : String) : List String :=
  (splitOnChar sep s.data).map String.mk

/-- Parses a non-empty all-digit string as a natural number. -/
def digitsToNat? (l : List Char) : Option Nat :=
  if l = [] then none
  else
    l.foldl
      (fun acc c =>
        match acc with
        | none => none
        | some n => if c.isDigit then some (n * 10 + (c.toNat - 48)) else none)
      (some 0)

/-- Parses an optionally negated all-digit string as an integer. -/
def parseIntStr (s : String) : Option ℤ :=
  match s.data with
  | [] => none
  | c :: cs =>
    if c == Char.ofNat 45 then (digitsToNat? cs).map (fun n => -(n : ℤ))
    else (digitsToNat? s.data).map (fun n => (n : ℤ))

def startsWithStr (s pat : String) : Bool := pat.data.isPrefixOf s.data

/-- Case-insensitive substring containment, the semantics of
`Series.str.contains(pat, case=False)` for a pattern without regular
expression metacharacters. -/
def containsCI (s pat : String) : Bool :=
  ((toLowerStr s).data.tails).any (fun t => (toLowerStr pat).data.isPrefixOf t)

/-! ### Raw input model

A raw table cell is a string, a number, or missing (NaN); a raw frame is a
list of column names plus rows of cells.  Machine floats are modelled by
rationals.
-/

inductive RawCell
  | str (s : String)
  | num (q : ℚ)
  | missing
deriving DecidableEq

/-- Pandas `astype(str)`: a missing value prints as the literal string
"nan". -/
def cellToStr : RawCell → String
  | .str s => s
  | .num q => toString q
  | .missing => "nan"

/-- Permissive date parsing with coercion to null on failure, as in
`pd.to_datetime(col, errors="coerce")`, restricted to ISO `YYYY-MM-DD`
text dates; the result is encoded as y*10000 + m*100 + d, which is
strictly monotone in the calendar order. -/
def parseDate (c : RawCell) : Option Nat :=
  match c with
  | .str s =>
    match (splitStr (Char.ofNat 45) s).map (fun t => digitsToNat? t.data) with
    | [some y, some m, some d] =>
      if 1 ≤ m ∧ m ≤ 12 ∧ 1 ≤ d ∧ d ≤ 31 ∧ 1 ≤ y then
        some (y * 10000 + m * 100 + d)
      else none
    | _ => none
  | _ => none

/-- Numeric parsing with coercion to null on failure, as in
`pd.to_numeric(col, errors="coerce")`; numeric text is modelled by integer
literals. -/
def parseAmount (c : RawCell) : Option ℚ :=
  match c with
  | .num q => some q
  | .str s => (parseIntStr s).map (fun n => (n : ℚ))
  | .missing => none

/-- The `astype(str).str.strip()` plus "nan"/"" → "Unknown" treatment
applied to the five categorical columns. -/
def cleanCat (c : RawCell) : String :=
  let s := trimStr (cellToStr c)
  if s = "nan" then "Unknown" else if s = "" then "Unknown" else s

/-- Removes a leading `http://…`/`https://…` token, as the regex
`^https?://[^\s]+` substitution does. -/
def stripUrl (s : String) : String :=
  if startsWithStr s "http://" || startsWithStr s "https://" then
    String.mk (s.data.dropWhile (fun ch => !ch.isWhitespace))
  else s

/-- Removes double- and single-quote characters anywhere in the string. -/
def stripQuotes (s : String) : String :=
  String.mk (s.data.filter (fun ch => ch ≠ Char.ofNat 34 ∧ ch ≠ Char.ofNat 39))

/-- The full `startup` column cleaning of `process_data`. -/
def cleanStartup (c : RawCell) : String :=
  stripQuotes (stripUrl (trimStr (cellToStr c)))

def round_mapping : List (String × String) :=
  [("Seed Round", "Seed"), ("Seed Funding", "Seed"), ("Seed", "Seed"),
   ("Angel Round", "Angel"), ("Angel", "Angel"),
   ("Series A", "Series A"), ("Series B", "Series B"), ("Series C", "Series C"),
   ("Series D", "Series D"), ("Series E", "Series E"), ("Series F", "Series F"),
   ("Series G", "Series G"), ("Series H", "Series H"),
   ("Pre-Series A", "Pre-Series A"), ("Pre-series A", "Pre-Series A"),
   ("Private Equity Round", "Private Equity"), ("Private Equity", "Private Equity"),
   ("Debt Funding", "Debt"), ("Bridge Round", "Bridge"),
   ("Venture Round", "Venture"), ("Corporate Round", "Corporate")]

/-! ### Canonical events and the normalizer -/

structure Event where
  startup : String
  date : Nat
  amount : ℚ
  vertical : String
  subvertical : String
  city : String
  investors : String
  round : String
  year : Nat
  month : Nat
  quarter : Nat
deriving DecidableEq

structure RawFrame where
  colNames : List String
  rows : List (List RawCell)

/-- `df.columns.str.strip().str.lower()`. -/
def cleanName (s : String) : String := toLowerStr (trimStr s)

inductive SchemaError
  | missingColumn (name : String)
deriving DecidableEq

/-- Reading one cell of a row by column position. -/
def getCell (row : List RawCell) (i : Nat) : RawCell := row.getD i .missing

/-- The columns `process_data` accesses, in access order. -/
def requiredCols : List String :=
  ["date", "startup", "amount", "vertical", "subvertical", "city", "investors", "round"]

/-- Column positions of the eight accessed columns after header cleaning. -/
structure ColIdx where
  date : Nat
  startup : Nat
  amount : Nat
  vertical : Nat
  subvertical : Nat
  city : Nat
  investors : Nat
  round : Nat

def colIdxOf (f : RawFrame) : ColIdx :=
  let names := f.colNames.map cleanName
  ⟨names.indexOf "date", names.indexOf "startup", names.indexOf "amount",
   names.indexOf "vertical", names.indexOf "subvertical", names.indexOf "city",
   names.indexOf "investors", names.indexOf "round"⟩

/-- The required columns absent from the cleaned header, in access order;
the first such access in `process_data` raises (spec: SchemaError). -/
def missingColumns (f : RawFrame) : List String :=
  requiredCols.filter (fun c => !((f.colNames.map cleanName).contains c))

/-- The per-row part of `process_data`: field cleaning followed by the
`dropna(subset=["date", "startup"])` and `startup != "Unknown"` filters.
A row whose date fails to parse, or whose startup cleans to "Unknown",
produces no event. -/
def rowToEvent (ix : ColIdx) (row : List RawCell) : Option Event :=
  match parseDate (getCell row ix.date) with
  | none => none
  | some d =>
    let st := cleanStartup (getCell row ix.startup)
    if st = "Unknown" then none
    else some
      { startup := st
        date := d
        amount := (parseAmount (getCell row ix.amount)).getD 0
        vertical := cleanCat (getCell row ix.vertical)
        subvertical := cleanCat (getCell row ix.subvertical)
        city := normalizeCity (cleanCat (getCell row ix.city))
        investors := cleanCat (getCell row ix.investors)
        round := applyReplace round_mapping (cleanCat (getCell row ix.round))
        year := d / 10000
        month := d / 100 % 100
        quarter := (d / 100 % 100 + 2) / 3 }

/-- `df.sort_values("date", ascending=False)`. -/
def sortByDateDesc (l : List Event) : List Event :=
  List.insertionSort (fun a b => b.date ≤ a.date) l

/-- Embedding of `DataProcessor.process_data`. -/
def process_data (f : RawFrame) : Except SchemaError (List Event) :=
  match missingColumns f with
  | c :: _ => .error (.missingColumn c)
  | [] => .ok (sortByDateDesc (f.rows.filterMap (rowToEvent (colIdxOf f))))

/-! ### Entity expansion: one stake per (event, investor) pair -/

structure Stake where
  investor : String
  startup : String
  date : Nat
  amount : ℚ
  round : String
  vertical : String
  city : String
  year : Nat
deriving DecidableEq

/-- Tokenization of one raw investors field: split on commas, strip each
token, keep tokens that are non-empty and not case-insensitively
"unknown". -/
def splitInvestors (s : String) : List String :=
  ((splitStr (Char.ofNat 44) s).map trimStr).filter
    (fun t => (t != "") && (toLowerStr t != "unknown"))

/-- The per-row investor expansion loop shared by `get_investor_info` and
`find_similar_investors`. -/
def expandInvestors (df : List Event) : List Stake :=
  df.flatMap (fun e =>
    (splitInvestors e.investors).map (fun inv =>
      ⟨inv, e.startup, e.date, e.amount, e.round, e.vertical, e.city, e.year⟩))

/-! ### Frequency counts (pandas `value_counts`) -/

/-- Distinct values in order of first appearance. -/
def uniqueFirst {α : Type} [DecidableEq α] (l : List α) : List α :=
  l.foldl (fun acc x => if x ∈ acc then acc else acc ++ [x]) []

def countPairs (l : List String) : List (String × Nat) :=
  (uniqueFirst l).map (fun k => (k, l.count k))

/-- `Series.value_counts()`: distinct values with multiplicities, ordered
by count descending. -/
def value_counts (l : List String) : List (String × Nat) :=
  List.insertionSort (fun a b => b.2 ≤ a.2) (countPairs l)

/-- `value_counts().head(3).index` as a set: the top three most frequent
values. -/
def top3 (l : List String) : Finset String :=
  (((value_counts l).take 3).map Prod.fst).toFinset

/-! ### Query engine -/

structure CompanyInfo where
  name : String
  industry : String
  subindustry : String
  location : String
  total_funding : ℚ
  funding_rounds : Nat
  last_funding_date : Nat
  first_funding_date : Nat
  funding_history : List (Nat × String × ℚ × String)
deriving DecidableEq

/-- Embedding of `DataProcessor.get_company_info`. -/
def get_company_info (df : List Event) (company_name : String) : Option CompanyInfo :=
  let m := df.filter (fun e => containsCI e.startup company_name)
  match m with
  | [] => none
  | e0 :: _ =>
    some
      { name := e0.startup
        industry := e0.vertical
        subindustry := e0.subvertical
        location := e0.city
        total_funding := (m.map (fun e => e.amount)).sum
        funding_rounds := m.length
        last_funding_date := ((m.map (fun e => e.date)).max?).getD 0
        first_funding_date := ((m.map (fun e => e.date)).min?).getD 0
        funding_history :=
          (List.insertionSort (fun a b => a.date ≤ b.date) m).map
            (fun e => (e.date, e.round, e.amount, e.investors)) }

/-- A pandas runtime failure: reading a column that the frame does not
have.  `pd.DataFrame([])` has no columns at all, so the investor queries
hit this on a dataset with no stakes. -/
inductive PdError
  | keyError (col : String)
deriving DecidableEq

structure InvestorInfo where
  name : String
  total_investments : Nat
  total_amount_invested : ℚ
  avg_investment : ℚ
  recent_investments : List Stake
  biggest_investments : List Stake
  sectors : List (String × Nat)
  stages : List (String × Nat)
  cities : List (String × Nat)
  yearly_investments : List (Nat × Nat × ℚ)
deriving DecidableEq

/-- `groupby("year").agg(count, sum)`: per-year stake count and amount
sum, keys ascending. -/
def yearlyAgg (m : List Stake) : List (Nat × Nat × ℚ) :=
  (List.insertionSort (fun a b => a ≤ b) (uniqueFirst (m.map (fun st => st.year)))).map
    (fun y =>
      (y, (m.filter (fun st => st.year == y)).length,
        ((m.filter (fun st => st.year == y)).map (fun st => st.amount)).sum))

/-- Embedding of `DataProcessor.get_investor_info`. -/
def get_investor_info (df : List Event) (investor_name : String) :
    Except PdError (Option InvestorInfo) :=
  let stakes := expandInvestors df
  if stakes.isEmpty then .error (.keyError "investor")
  else
    let m := stakes.filter (fun st => containsCI st.investor investor_name)
    if m.isEmpty then .ok none
    else
      .ok (some
        { name := investor_name
          total_investments := m.length
          total_amount_invested := (m.map (fun st => st.amount)).sum
          avg_investment := (m.map (fun st => st.amount)).sum / (m.length : ℚ)
          recent_investments := (List.insertionSort (fun a b => b.date ≤ a.date) m).take 10
          biggest_investments := (List.insertionSort (fun a b => b.amount ≤ a.amount) m).take 10
          sectors := value_counts (m.map (fun st => st.vertical))
          stages := value_counts (m.map (fun st => st.round))
          cities := value_counts (m.map (fun st => st.city))
          yearly_investments := yearlyAgg m })

structure SimilarCompany where
  startup : String
  amount : ℚ
  vertical : String
  subvertical : String
  city : String
  date : Nat
deriving DecidableEq

/-- Embedding of `DataProcessor.find_similar_companies`: the grouped
summary keys are ascending because pandas `groupby` sorts group keys by
default. -/
def find_similar_companies (df : List Event) (company_name : String) (limit : Nat := 5) :
    List SimilarCompany :=
  let m := df.filter (fun e => containsCI e.startup company_name)
  match m with
  | [] => []
  | e0 :: _ =>
    let pool := df.filter (fun e =>
      (e.vertical == e0.vertical) || (e.subvertical == e0.subvertical) || (e.city == e0.city))
    let pool2 := pool.filter (fun e => !containsCI e.startup company_name)
    let keys := List.insertionSort (fun a b => a ≤ b) (uniqueFirst (pool2.map (fun e => e.startup)))
    let summary := keys.map (fun k =>
      let g := pool2.filter (fun e => e.startup == k)
      { startup := k
        amount := (g.map (fun e => e.amount)).sum
        vertical := ((g.head?).map (fun e => e.vertical)).getD "Unknown"
        subvertical := ((g.head?).map (fun e => e.subvertical)).getD "Unknown"
        city := ((g.head?).map (fun e => e.city)).getD "Unknown"
        date := ((g.map (fun e => e.date)).max?).getD 0 : SimilarCompany })
    (List.insertionSort (fun a b => b.amount ≤ a.amount) summary).take limit

/-! ### Investor similarity -/

/-- Jaccard overlap of two finite string sets; an empty union yields 0
because rational division by zero is 0. -/
def jaccard (a b : Finset String) : ℚ :=
  ((a ∩ b).card : ℚ) / ((a ∪ b).card : ℚ)

/-- The `similarity_score` closure of `find_similar_investors`: the mean
of the sector-set and stage-set Jaccard overlaps against the target
profile. -/
def similarity_score (tS tT cS cT : Finset String) : ℚ :=
  (jaccard tS cS + jaccard tT cT) / 2

structure SimilarInvestor where
  investor : String
  total_amount : ℚ
  investment_count : Nat
  similarity : ℚ
deriving DecidableEq

/-- `groupby("investor")` keys, ascending as pandas sorts them. -/
def investorGroups (stakes : List Stake) : List String :=
  List.insertionSort (fun a b => a ≤ b) (uniqueFirst (stakes.map (fun st => st.investor)))

def stakesOf (stakes : List Stake) (i : String) : List Stake :=
  stakes.filter (fun st => st.investor == i)

/-- The per-investor aggregation plus similarity scoring step of
`find_similar_investors`, before exclusion and ranking. -/
def scoredInvestors (stakes : List Stake) (tS tT : Finset String) : List SimilarInvestor :=
  (investorGroups stakes).map (fun i =>
    let g := stakesOf stakes i
    { investor := i
      total_amount := (g.map (fun st => st.amount)).sum
      investment_count := g.length
      similarity :=
        similarity_score tS tT
          (top3 (g.map (fun st => st.vertical)))
          (top3 (g.map (fun st => st.round))) })

/-- Embedding of `DataProcessor.find_similar_investors`. -/
def find_similar_investors (df : List Event) (investor_name : String) (limit : Nat := 5) :
    Except PdError (List SimilarInvestor) :=
  let stakes := expandInvestors df
  if stakes.isEmpty then .error (.keyError "investor")
  else
    let target := stakes.filter (fun st => containsCI st.investor investor_name)
    if target.isEmpty then .ok []
    else
      let tS := top3 (target.map (fun st => st.vertical))
      let tT := top3 (target.map (fun st => st.round))
      let scored := scoredInvestors stakes tS tT
      let kept := scored.filter (fun r => !containsCI r.investor investor_name)
      .ok ((List.insertionSort (fun a b => b.similarity ≤ a.similarity) kept).take limit)

instance exceptDecEq {ε α : Type} [DecidableEq ε] [DecidableEq α] :
    DecidableEq (Except ε α)
  | .ok a, .ok b =>
    if h : a = b then isTrue (by rw [h]) else isFalse (fun he => h (by injection he))
  | .ok _, .error _ => isFalse (fun he => Except.noConfusion he)
  | .error _, .ok _ => isFalse (fun he => Except.noConfusion he)
  | .error e, .error f =>
    if h : e = f then isTrue (by rw [h]) else isFalse (fun he => h (by injection he))

/-! ### Concrete instances used to exercise the pipeline -/

/-- A well-formed raw frame whose single row has a negative numeric
amount. -/
def frameNeg : RawFrame :=
  ⟨["date", "startup", "amount", "vertical", "subvertical", "city", "investors", "round"],
   [[.str "2015-01-05", .str "Flipkart", .num (-5), .str "E-Commerce", .str "Retail",
     .str "Bengaluru", .str "Accel", .str "Seed"]]⟩

/-- The event `process_data` produces from `frameNeg`. -/
def eventNeg : Event :=
  ⟨"Flipkart", 20150105, -5, "E-Commerce", "Retail", "Bangalore", "Accel", "Seed", 2015, 1, 1⟩

/-- A raw frame mixing a valid row, a row with an invalid date, a row with
an unparseable amount, and a row with a missing (NaN) startup. -/
def frameMixed : RawFrame :=
  ⟨["Date", " Startup", "Amount", "Vertical", "SubVertical", "City", "Investors", "Round"],
   [[.str "2015-01-05", .str "Flipkart", .missing, .str "E-Commerce", .str "nan",
     .str "bengaluru", .str "Accel, SAIF, ", .str "Seed Round"],
    [.str "2015-13-01", .str "Foo", .num 3, .str "Tech", .str "", .str "Noida",
     .str "unknown", .str "Seed"],
    [.str "2016-02-03", .str "Ola", .str "abc", .str "Transport", .str "x",
     .str "New Delhi", .str "Tiger Global", .str "Series A"]]⟩

/-- Two cleaned events used to exercise the query operations. -/
def evFlipkart : Event :=
  ⟨"Flipkart", 20150105, 100, "E-Commerce", "Retail", "Bangalore", "Accel, SAIF", "Seed",
   2015, 1, 1⟩

def evOla : Event :=
  ⟨"Ola Cabs", 20160210, 250, "Transport", "Cabs", "Bangalore", "ACCEL India, SoftBank",
   "Series B", 2016, 2, 1⟩

def dfQueries : List Event := [evFlipkart, evOla]

/-! ### Properties of the character and title-casing layer

Python's `str.title` upper-cases every letter that follows a non-letter and
lower-cases the rest.  We first establish the facts about `Char.toLower`/
`Char.toUpper` needed to reason about that transform on ASCII text.
-/

theorem char_toNat_ofNat (n : Nat) (h : n < 55296) : (Char.ofNat n).toNat = n := by
  have hv : n.isValidChar := Or.inl h
  simp [Char.ofNat, hv, Char.ofNatAux, Char.toNat, UInt32.toNat, BitVec.toNat_ofNatLt]

theorem char_isUpper_iff (c : Char) : c.isUpper = true ↔ 65 ≤ c.toNat ∧ c.toNat ≤ 90 := by
  simp only [Char.isUpper, Char.toNat, UInt32.le_def, BitVec.le_def, Bool.and_eq_true,
    decide_eq_true_eq]
  exact Iff.rfl

theorem char_isLower_iff (c : Char) : c.isLower = true ↔ 97 ≤ c.toNat ∧ c.toNat ≤ 122 := by
  simp only [Char.isLower, Char.toNat, UInt32.le_def, BitVec.le_def, Bool.and_eq_true,
    decide_eq_true_eq]
  exact Iff.rfl

theorem char_isAlpha_iff (c : Char) :
    c.isAlpha = true ↔ (65 ≤ c.toNat ∧ c.toNat ≤ 90) ∨ (97 ≤ c.toNat ∧ c.toNat ≤ 122) := by
  simp only [Char.isAlpha, Bool.or_eq_true, char_isUpper_iff, char_isLower_iff]

theorem toNat_toLower_of_upper (c : Char) (h : 65 ≤ c.toNat ∧ c.toNat ≤ 90) :
    c.toLower.toNat = c.toNat + 32 := by
  unfold Char.toLower
  rw [if_pos (by exact ⟨h.1, h.2⟩)]
  exact char_toNat_ofNat _ (by omega)

theorem toLower_eq_self (c : Char) (h : ¬ (65 ≤ c.toNat ∧ c.toNat ≤ 90)) :
    c.toLower = c := by
  unfold Char.toLower
  rw [if_neg (by exact fun hc => h ⟨hc.1, hc.2⟩)]

theorem toNat_toUpper_of_lower (c : Char) (h : 97 ≤ c.toNat ∧ c.toNat ≤ 122) :
    c.toUpper.toNat = c.toNat - 32 := by
  unfold Char.toUpper
  rw [if_pos (by exact ⟨h.1, h.2⟩)]
  exact char_toNat_ofNat _ (by omega)

theorem toUpper_eq_self (c : Char) (h : ¬ (97 ≤ c.toNat ∧ c.toNat ≤ 122)) :
    c.toUpper = c := by
  unfold Char.toUpper
  rw [if_neg (by exact fun hc => h ⟨hc.1, hc.2⟩)]

theorem toLower_toLower (c : Char) : c.toLower.toLower = c.toLower := by
  by_cases h : 65 ≤ c.toNat ∧ c.toNat ≤ 90
  · have h2 := toNat_toLower_of_upper c h
    exact toLower_eq_self _ (by omega)
  · rw [toLower_eq_self c h, toLower_eq_self c h]

theorem toUpper_toUpper (c : Char) : c.toUpper.toUpper = c.toUpper := by
  by_cases h : 97 ≤ c.toNat ∧ c.toNat ≤ 122
  · have h2 := toNat_toUpper_of_lower c h
    exact toUpper_eq_self _ (by omega)
  · rw [toUpper_eq_self c h, toUpper_eq_self c h]

theorem isAlpha_toLower (c : Char) : c.toLower.isAlpha = c.isAlpha := by
  rw [Bool.eq_iff_iff, char_isAlpha_iff, char_isAlpha_iff]
  by_cases h : 65 ≤ c.toNat ∧ c.toNat ≤ 90
  · rw [toNat_toLower_of_upper c h]
    omega
  · rw [toLower_eq_self c h]

theorem isAlpha_toUpper (c : Char) : c.toUpper.isAlpha = c.isAlpha := by
  rw [Bool.eq_iff_iff, char_isAlpha_iff, char_isAlpha_iff]
  by_cases h : 97 ≤ c.toNat ∧ c.toNat ≤ 122
  · rw [toNat_toUpper_of_lower c h]
    omega
  · rw [toUpper_eq_self c h]

theorem titleTransform_isAlpha (b : Bool) (c : Char) :
    (titleTransform b c).isAlpha = c.isAlpha := by
  by_cases h : c.isAlpha = true
  · cases b
    · simp [titleTransform, h, isAlpha_toUpper]
    · simp [titleTransform, h, isAlpha_toLower]
  · simp [titleTransform, h]

theorem titleTransform_idem (b : Bool) (c : Char) :
    titleTransform b (titleTransform b c) = titleTransform b c := by
  by_cases h : c.isAlpha = true
  · cases b
    · simp [titleTransform, h, isAlpha_toUpper, toUpper_toUpper]
    · simp [titleTransform, h, isAlpha_toLower, toLower_toLower]
  · simp [titleTransform, h]

theorem titleAux_idem (l : List Char) : ∀ b, titleAux b (titleAux b l) = titleAux b l := by
  induction l with
  | nil => intro b; rfl
  | cons c cs ih =>
    intro b
    simp only [titleAux]
    rw [titleTransform_idem, titleTransform_isAlpha, ih]

theorem pythonTitle_idem (s : String) : pythonTitle (pythonTitle s) = pythonTitle s := by
  show String.mk (titleAux false (titleAux false s.data)) = String.mk (titleAux false s.data)
  rw [titleAux_idem]

theorem city_mapping_lookup_values (s t : String)
    (h : city_mapping.lookup s = some t) :
    t = "Bangalore" ∨ t = "Gurugram" ∨ t = "Delhi" ∨ t = "Delhi NCR" := by
  simp only [city_mapping, List.lookup] at h
  repeat' split at h
  all_goals simp_all

/-- Claim C2 (amended): the city canonicalization step (title-casing
followed by the fixed alias table) is idempotent on every city string
whose canonical form is not "Delhi NCR": for such c,
normalizeCity (normalizeCity c) = normalizeCity c.  The exception is
forced: title-casing turns "Delhi NCR" into "Delhi Ncr". -/
theorem c2_city_step_idempotent_amended (c : String) (h : normalizeCity c ≠ "Delhi NCR") :
    normalizeCity (normalizeCity c) = normalizeCity c := by
  unfold normalizeCity at h ⊢
  cases hm : city_mapping.lookup (pythonTitle c) with
  | none =>
    have h1 : applyReplace city_mapping (pythonTitle c) = pythonTitle c := by
      simp [applyReplace, hm]
    rw [h1, pythonTitle_idem]
    simp [applyReplace, hm]
  | some t =>
    have h1 : applyReplace city_mapping (pythonTitle c) = t := by
      simp [applyReplace, hm]
    rw [h1] at h ⊢
    rcases city_mapping_lookup_values _ _ hm with h2 | h2 | h2 | h2 <;> subst h2
    · decide
    · decide
    · decide
    · exact absurd rfl h

/-! ### Supporting lemmas -/

theorem uniqueFirst_aux {α : Type} [DecidableEq α] (l : List α) :
    ∀ acc : List α, ∀ x ∈ l.foldl (fun acc x => if x ∈ acc then acc else acc ++ [x]) acc,
      x ∈ acc ∨ x ∈ l := by
  induction l with
  | nil => intro acc x hx; exact Or.inl hx
  | cons y ys ih =>
    intro acc x hx
    simp only [List.foldl_cons] at hx
    rcases ih _ x hx with h | h
    · by_cases hy : y ∈ acc
      · rw [if_pos hy] at h
        exact Or.inl h
      · rw [if_neg hy] at h
        rcases List.mem_append.mp h with h2 | h2
        · exact Or.inl h2
        · simp only [List.mem_singleton] at h2
          subst h2
          exact Or.inr (List.mem_cons_self _ _)
    · exact Or.inr (List.mem_cons_of_mem _ h)

theorem uniqueFirst_sub {α : Type} [DecidableEq α] (l : List α) :
    ∀ x ∈ uniqueFirst l, x ∈ l := by
  intro x hx
  rcases uniqueFirst_aux l [] x hx with h | h
  · simp at h
  · exact h

theorem uniqueFirst_aux_ne_nil {α : Type} [DecidableEq α] (l : List α) :
    ∀ acc : List α, acc ≠ [] →
      l.foldl (fun acc x => if x ∈ acc then acc else acc ++ [x]) acc ≠ [] := by
  induction l with
  | nil => intro acc h; exact h
  | cons y ys ih =>
    intro acc h
    simp only [List.foldl_cons]
    apply ih
    by_cases hy : y ∈ acc
    · rw [if_pos hy]; exact h
    · rw [if_neg hy]
      exact fun hn => by simpa using congrArg List.length hn

theorem uniqueFirst_ne_nil {α : Type} [DecidableEq α] (l : List α) (h : l ≠ []) :
    uniqueFirst l ≠ [] := by
  match l with
  | [] => exact absurd rfl h
  | y :: ys =>
    show List.foldl _ _ (y :: ys) ≠ []
    rw [List.foldl_cons]
    exact uniqueFirst_aux_ne_nil ys _ (by simp)

theorem value_counts_ne_nil (l : List String) (h : l ≠ []) : value_counts l ≠ [] := by
  intro hn
  have hp := List.perm_insertionSort (fun a b : String × Nat => b.2 ≤ a.2) (countPairs l)
  rw [value_counts] at hn
  rw [hn] at hp
  have h1 : countPairs l = [] := hp.symm.eq_nil
  have h2 : uniqueFirst l = [] := by
    simpa [countPairs, List.map_eq_nil_iff] using h1
  exact uniqueFirst_ne_nil l h h2

theorem top3_nonempty (l : List String) (h : l ≠ []) : (top3 l).Nonempty := by
  have h1 : value_counts l ≠ [] := value_counts_ne_nil l h
  have h2 : (value_counts l).take 3 ≠ [] := by
    rw [Ne, List.take_eq_nil_iff]
    push_neg
    exact ⟨by norm_num, h1⟩
  have h3 : ((value_counts l).take 3).map Prod.fst ≠ [] := by
    rw [Ne, List.map_eq_nil_iff]
    exact h2
  obtain ⟨x, hx⟩ := List.exists_mem_of_ne_nil _ h3
  exact ⟨x, List.mem_toFinset.mpr hx⟩

theorem jaccard_nonneg (a b : Finset String) : 0 ≤ jaccard a b := by
  unfold jaccard
  positivity

theorem jaccard_le_one (a b : Finset String) : jaccard a b ≤ 1 := by
  unfold jaccard
  rcases Nat.eq_zero_or_pos (a ∪ b).card with h | h
  · simp [h]
  · rw [div_le_one (by exact_mod_cast h)]
    exact_mod_cast Finset.card_le_card Finset.inter_subset_union

theorem jaccard_self (a : Finset String) (h : a.Nonempty) : jaccard a a = 1 := by
  unfold jaccard
  rw [Finset.inter_self, Finset.union_self]
  have hc : (a.card : ℚ) ≠ 0 := by
    have := Finset.card_pos.mpr h
    exact_mod_cast Nat.pos_iff_ne_zero.mp this
  exact div_self hc

theorem similarity_score_bounds (tS tT cS cT : Finset String) :
    0 ≤ similarity_score tS tT cS cT ∧ similarity_score tS tT cS cT ≤ 1 := by
  have h1 := jaccard_nonneg tS cS
  have h2 := jaccard_nonneg tT cT
  have h3 := jaccard_le_one tS cS
  have h4 := jaccard_le_one tT cT
  unfold similarity_score
  constructor <;> linarith

theorem nat_max?_spec (l : List Nat) (h : l ≠ []) :
    ∃ m, l.max? = some m ∧ m ∈ l ∧ ∀ b ∈ l, b ≤ m := by
  cases hm : l.max? with
  | none => exact absurd (List.max?_eq_none_iff.mp hm) h
  | some m =>
    refine ⟨m, rfl, ?_⟩
    have := (List.max?_eq_some_iff (fun a => Nat.le_refl a)
      (fun a b => max_choice a b) (fun a b c => Nat.max_le)).mp hm
    exact this

theorem nat_min?_spec (l : List Nat) (h : l ≠ []) :
    ∃ m, l.min? = some m ∧ m ∈ l ∧ ∀ b ∈ l, m ≤ b := by
  cases hm : l.min? with
  | none => exact absurd (List.min?_eq_none_iff.mp hm) h
  | some m =>
    refine ⟨m, rfl, ?_⟩
    have := (List.min?_eq_some_iff (fun a => Nat.le_refl a)
      (fun a b => min_choice a b) (fun a b c => Nat.le_min)).mp hm
    exact this

theorem rowToEvent_eq_some (ix : ColIdx) (row : List RawCell) (ev : Event)
    (h : rowToEvent ix row = some ev) :
    parseDate (getCell row ix.date) = some ev.date ∧
    ev.startup = cleanStartup (getCell row ix.startup) ∧
    ev.startup ≠ "Unknown" ∧
    ev.amount = (parseAmount (getCell row ix.amount)).getD 0 := by
  unfold rowToEvent at h
  cases hd : parseDate (getCell row ix.date) with
  | none => rw [hd] at h; cases h
  | some d =>
    rw [hd] at h
    dsimp only at h
    split at h
    · cases h
    · injection h with h2
      subst h2
      refine ⟨?_, ?_, ?_, ?_⟩
      · simp [hd]
      · rfl
      · assumption
      · rfl

theorem rowToEvent_eq_none_of (ix : ColIdx) (row : List RawCell)
    (h : parseDate (getCell row ix.date) = none ∨
      cleanStartup (getCell row ix.startup) = "Unknown") :
    rowToEvent ix row = none := by
  unfold rowToEvent
  rcases h with h | h
  · rw [h]
  · cases hd : parseDate (getCell row ix.date) with
    | none => rfl
    | some d =>
      dsimp only
      rw [if_pos h]

theorem mem_process_data (f : RawFrame) (evs : List Event)
    (h : process_data f = Except.ok evs) (ev : Event) :
    ev ∈ evs ↔ ∃ r ∈ f.rows, rowToEvent (colIdxOf f) r = some ev := by
  unfold process_data at h
  split at h
  · exact absurd h (by simp)
  · injection h with h2
    rw [← h2]
    unfold sortByDateDesc
    rw [(List.perm_insertionSort _ _).mem_iff]
    exact List.mem_filterMap

/-! ### The claims -/

/-- Claim C2 counterexample: the city canonicalization step is not
idempotent as stated.  "Noida" canonicalizes to "Delhi NCR", but running
the step again title-cases it to "Delhi Ncr", which the alias table does
not map back. -/
theorem c2_counterexample :
    normalizeCity (normalizeCity "Noida") ≠ normalizeCity "Noida" := by decide

/-- Witness for the amended C2 theorem at the concrete city "bengaluru". -/
theorem c2_witness :
    normalizeCity "bengaluru" ≠ "Delhi NCR" ∧
    normalizeCity (normalizeCity "bengaluru") = normalizeCity "bengaluru" :=
  ⟨by decide, c2_city_step_idempotent_amended "bengaluru" (by decide)⟩

/-- Claim C1 counterexample: process_data does not clip negative numeric
amounts, so an output event can have amount < 0. -/
theorem c1_counterexample :
    process_data frameNeg = Except.ok [eventNeg] ∧ eventNeg.amount < 0 := by decide

/-- Claim C1 (amended): a raw amount that is missing or non-numeric is
replaced by 0 in the produced event, and every output amount is
non-negative provided every raw amount cell of the frame parses to a
non-negative number or fails to parse (pd.to_numeric + fillna(0) never
clips an explicitly negative numeric amount). -/
theorem c1_amount_amended (f : RawFrame) (evs : List Event)
    (h : process_data f = Except.ok evs)
    (hnn : ∀ r ∈ f.rows, 0 ≤ (parseAmount (getCell r (colIdxOf f).amount)).getD 0) :
    (∀ ev ∈ evs, 0 ≤ ev.amount) ∧
    (∀ r ∈ f.rows, parseAmount (getCell r (colIdxOf f).amount) = none →
      ∀ ev, rowToEvent (colIdxOf f) r = some ev → ev.amount = 0) := by
  constructor
  · intro ev hev
    obtain ⟨r, hr, hre⟩ := (mem_process_data f evs h ev).mp hev
    obtain ⟨-, -, -, ham⟩ := rowToEvent_eq_some _ _ _ hre
    rw [ham]
    exact hnn r hr
  · intro r _ hnone ev hre
    obtain ⟨-, -, -, ham⟩ := rowToEvent_eq_some _ _ _ hre
    rw [ham, hnone]
    rfl

/-- Witness for the amended C1 theorem: on a frame whose amounts are a
missing cell, non-numeric text and nothing else, every produced event has
amount 0 and hence non-negative. -/
theorem c1_witness :
    (∀ ev ∈ (process_data frameMixed).toOption.getD [], 0 ≤ ev.amount) ∧
    (∀ r ∈ frameMixed.rows,
      parseAmount (getCell r (colIdxOf frameMixed).amount) = none →
      ∀ ev, rowToEvent (colIdxOf frameMixed) r = some ev → ev.amount = 0) := by
  have h := c1_amount_amended frameMixed ((process_data frameMixed).toOption.getD [])
    (by decide) (by decide)
  exact ⟨h.1, h.2⟩

/-- Claim C3: every event produced by process_data has a startup other
than "Unknown" and a date taken from a successful parse of its raw row;
and a raw row whose date fails to parse, or whose startup cleans to
"Unknown", produces no event. -/
theorem c3_post_filter_invariant (f : RawFrame) (evs : List Event)
    (h : process_data f = Except.ok evs) :
    (∀ ev ∈ evs, ev.startup ≠ "Unknown") ∧
    (∀ ev ∈ evs, ∃ r ∈ f.rows, rowToEvent (colIdxOf f) r = some ev ∧
      parseDate (getCell r (colIdxOf f).date) = some ev.date) ∧
    (∀ r ∈ f.rows,
      (parseDate (getCell r (colIdxOf f).date) = none ∨
        cleanStartup (getCell r (colIdxOf f).startup) = "Unknown") →
      rowToEvent (colIdxOf f) r = none) := by
  refine ⟨?_, ?_, ?_⟩
  · intro ev hev
    obtain ⟨r, _, hre⟩ := (mem_process_data f evs h ev).mp hev
    exact (rowToEvent_eq_some _ _ _ hre).2.2.1
  · intro ev hev
    obtain ⟨r, hr, hre⟩ := (mem_process_data f evs h ev).mp hev
    exact ⟨r, hr, hre, (rowToEvent_eq_some _ _ _ hre).1⟩
  · intro r _ hbad
    exact rowToEvent_eq_none_of _ _ hbad

/-- Witness for C3 on a mixed frame: the invalid-date row is dropped and
all surviving startups differ from "Unknown". -/
theorem c3_witness :
    (∀ ev ∈ (process_data frameMixed).toOption.getD [], ev.startup ≠ "Unknown") ∧
    (∀ r ∈ frameMixed.rows,
      (parseDate (getCell r (colIdxOf frameMixed).date) = none ∨
        cleanStartup (getCell r (colIdxOf frameMixed).startup) = "Unknown") →
      rowToEvent (colIdxOf frameMixed) r = none) := by
  have h := c3_post_filter_invariant frameMixed
    ((process_data frameMixed).toOption.getD []) (by decide)
  exact ⟨h.1, h.2.2⟩

/-- Claim C9: process_data succeeds exactly when every required column is
present in the cleaned header, whatever the cell contents are; a missing
required column yields a SchemaError and no partial result, and malformed
individual field values never cause a failure (the success of the run does
not depend on the rows at all). -/
theorem c9_schema_error_iff (f : RawFrame) :
    ((∃ evs, process_data f = Except.ok evs) ↔
      ∀ c ∈ requiredCols, c ∈ f.colNames.map cleanName) ∧
    (∀ rows2, (process_data ⟨f.colNames, rows2⟩).isOk = (process_data f).isOk) := by
  have hmiss : ∀ g : RawFrame, missingColumns g = [] ↔
      ∀ c ∈ requiredCols, c ∈ g.colNames.map cleanName := by
    intro g
    rw [missingColumns, List.filter_eq_nil_iff]
    constructor
    · intro hall c hc
      have h2 := hall c hc
      cases hcon : (List.map cleanName g.colNames).contains c with
      | true => exact List.elem_iff.mp hcon
      | false => rw [hcon] at h2; simp at h2
    · intro hall c hc
      have h3 := List.elem_iff.mpr (hall c hc)
      rw [show (List.map cleanName g.colNames).contains c = true from h3]
      simp
  constructor
  · rw [← hmiss f]
    unfold process_data
    cases hm : missingColumns f with
    | nil => simp
    | cons c cs => simp
  · intro rows2
    unfold process_data
    have : missingColumns ⟨f.colNames, rows2⟩ = missingColumns f := rfl
    rw [this]
    cases missingColumns f with
    | nil => rfl
    | cons c cs => rfl

/-- Witness for C9: the well-formed mixed frame processes successfully,
and dropping its startup column fails with a SchemaError. -/
theorem c9_witness :
    (∃ evs, process_data frameMixed = Except.ok evs) ∧
    ¬ ∃ evs, process_data ⟨["date", "amount"], frameMixed.rows⟩ = Except.ok evs := by
  constructor
  · exact (c9_schema_error_iff frameMixed).1.mpr (by decide)
  · intro hcon
    have := (c9_schema_error_iff ⟨["date", "amount"], frameMixed.rows⟩).1.mp hcon
    have h2 := this "startup" (by decide)
    revert h2
    decide

/-- Claim C6: expanding investors splits the raw field on commas, trims
each token, and keeps exactly the tokens that are non-empty and not
case-insensitively equal to "unknown"; in particular the raw value
"Seq Capital, Accel, " yields exactly the two investors "Seq Capital" and
"Accel", the trailing empty token being discarded. -/
theorem c6_expand_investors_tokens :
    (∀ s t, t ∈ splitInvestors s ↔
      (t ∈ (splitStr (Char.ofNat 44) s).map trimStr ∧ t ≠ "" ∧ toLowerStr t ≠ "unknown")) ∧
    (∀ e : Event, (expandInvestors [e]).map (fun st => st.investor) = splitInvestors e.investors) ∧
    splitInvestors "Seq Capital, Accel, " = ["Seq Capital", "Accel"] := by
  refine ⟨?_, ?_, by decide⟩
  · intro s t
    unfold splitInvestors
    rw [List.mem_filter]
    simp [bne_iff_ne, and_assoc]
  · intro e
    unfold expandInvestors
    simp only [List.flatMap_cons, List.flatMap_nil, List.append_nil, List.map_map]
    exact List.map_id _ ▸ rfl

/-- Claim C7: with at least one matching event, get_company_info returns a
profile whose funding_rounds counts the matching events, whose
total_funding sums their amounts, and whose first/last_funding_date are
the minimum/maximum of their dates. -/
theorem c7_company_profile_aggregates (df : List Event) (x : String)
    (h : df.filter (fun e => containsCI e.startup x) ≠ []) :
    ∃ info, get_company_info df x = some info ∧
      info.funding_rounds = df.countP (fun e => containsCI e.startup x) ∧
      info.total_funding =
        ((df.filter (fun e => containsCI e.startup x)).map (fun e => e.amount)).sum ∧
      (info.last_funding_date ∈
          (df.filter (fun e => containsCI e.startup x)).map (fun e => e.date) ∧
        ∀ d ∈ (df.filter (fun e => containsCI e.startup x)).map (fun e => e.date),
          d ≤ info.last_funding_date) ∧
      (info.first_funding_date ∈
          (df.filter (fun e => containsCI e.startup x)).map (fun e => e.date) ∧
        ∀ d ∈ (df.filter (fun e => containsCI e.startup x)).map (fun e => e.date),
          info.first_funding_date ≤ d) := by
  cases hm : df.filter (fun e => containsCI e.startup x) with
  | nil => exact absurd hm h
  | cons e0 tl =>
    unfold get_company_info
    rw [hm]
    obtain ⟨mx, hmx, hmxmem, hmxle⟩ :=
      nat_max?_spec ((e0 :: tl).map (fun e => e.date)) (by simp)
    obtain ⟨mn, hmn, hmnmem, hmnle⟩ :=
      nat_min?_spec ((e0 :: tl).map (fun e => e.date)) (by simp)
    refine ⟨_, rfl, ?_, rfl, ?_, ?_⟩
    · rw [List.countP_eq_length_filter, hm]
    · simp only [hmx, Option.getD_some]
      exact ⟨hmxmem, hmxle⟩
    · simp only [hmn, Option.getD_some]
      exact ⟨hmnmem, hmnle⟩

/-- Witness for C7 at the query "flip" over the two-event dataset. -/
theorem c7_witness :
    (dfQueries.filter (fun e => containsCI e.startup "flip") ≠ []) ∧
    (∃ info, get_company_info dfQueries "flip" = some info ∧
      info.funding_rounds = dfQueries.countP (fun e => containsCI e.startup "flip")) := by
  refine ⟨by decide, ?_⟩
  obtain ⟨info, h1, h2, -⟩ := c7_company_profile_aggregates dfQueries "flip" (by decide)
  exact ⟨info, h1, h2⟩

/-- Claim C8 counterexample: on a dataset producing no stakes at all,
zero stakes match the query, yet get_investor_info does not return the
NotFound value; building a data frame from an empty record list leaves no
investor column, so the lookup raises a KeyError instead. -/
theorem c8_counterexample :
    (expandInvestors ([] : List Event)).filter
      (fun st => containsCI st.investor "Accel") = [] ∧
    get_investor_info ([] : List Event) "Accel" ≠ Except.ok none := by
  exact ⟨rfl, by decide⟩

/-- Claim C8 (amended): get_company_info returns NotFound exactly when
zero events match; get_investor_info returns NotFound exactly when the
dataset yields at least one stake and zero stakes match (with no stakes at
all it raises a KeyError instead); and find_similar_companies returns an
empty list, not an error, when the target matches nothing. -/
theorem c8_notfound_amended :
    (∀ (df : List Event) (name : String),
      get_company_info df name = none ↔
        df.filter (fun e => containsCI e.startup name) = []) ∧
    (∀ (df : List Event) (name : String), expandInvestors df ≠ [] →
      (get_investor_info df name = Except.ok none ↔
        (expandInvestors df).filter (fun st => containsCI st.investor name) = [])) ∧
    (∀ (df : List Event) (name : String), expandInvestors df = [] →
      get_investor_info df name = Except.error (PdError.keyError "investor")) ∧
    (∀ (df : List Event) (name : String) (limit : Nat),
      df.filter (fun e => containsCI e.startup name) = [] →
      find_similar_companies df name limit = []) := by
  refine ⟨?_, ?_, ?_, ?_⟩
  · intro df name
    unfold get_company_info
    cases hm : df.filter (fun e => containsCI e.startup name) with
    | nil => simp
    | cons e0 tl => simp
  · intro df name hne
    unfold get_investor_info
    rw [if_neg (fun hc => hne (List.isEmpty_iff.mp hc))]
    by_cases hm :
        ((expandInvestors df).filter (fun st => containsCI st.investor name)).isEmpty = true
    · rw [if_pos hm]
      simp [List.isEmpty_iff.mp hm]
    · rw [if_neg hm]
      constructor
      · intro hx
        exact absurd hx (by simp)
      · intro hx
        exact absurd (List.isEmpty_iff.mpr hx) hm
  · intro df name he
    unfold get_investor_info
    rw [if_pos (List.isEmpty_iff.mpr he)]
  · intro df name limit hf
    unfold find_similar_companies
    rw [hf]

/-- Witness for the amended C8 theorem: an unmatched query gives NotFound
for both profile look-ups and an empty similar-companies list on a
dataset that does have stakes. -/
theorem c8_witness :
    get_company_info dfQueries "zzz" = none ∧
    get_investor_info dfQueries "zzz" = Except.ok none ∧
    find_similar_companies dfQueries "zzz" 5 = [] := by
  refine ⟨?_, ?_, ?_⟩
  · exact (c8_notfound_amended.1 dfQueries "zzz").mpr (by decide)
  · exact (c8_notfound_amended.2.1 dfQueries "zzz" (by decide)).mpr (by decide)
  · exact c8_notfound_amended.2.2.2 dfQueries "zzz" 5 (by decide)

/-- Claim C10: when at least one stake matches, the name field of the
profile returned by get_investor_info is the query string exactly as
passed by the caller, not the matched investor name. -/
theorem c10_investor_profile_name (df : List Event) (name : String)
    (h : (expandInvestors df).filter (fun st => containsCI st.investor name) ≠ []) :
    ∃ info, get_investor_info df name = Except.ok (some info) ∧ info.name = name := by
  have hs : expandInvestors df ≠ [] := by
    intro hn
    rw [hn] at h
    exact h rfl
  unfold get_investor_info
  rw [if_neg (fun hc => hs (List.isEmpty_iff.mp hc))]
  rw [if_neg (fun hc => h (List.isEmpty_iff.mp hc))]
  exact ⟨_, rfl, rfl⟩

/-- Witness for C10: the query "accel india" matches only the stake whose
investor is spelled "ACCEL India", and the returned profile name is the
query string, not that spelling. -/
theorem c10_witness :
    (∃ info, get_investor_info dfQueries "accel india" = Except.ok (some info) ∧
      info.name = "accel india") ∧
    (∀ st ∈ (expandInvestors dfQueries).filter
      (fun st => containsCI st.investor "accel india"), st.investor = "ACCEL India") :=
  ⟨c10_investor_profile_name dfQueries "accel india" (by decide), by decide⟩

/-- Claim C4: in find_similar_investors every computed similarity score is
the average of the Jaccard overlap of the top-3 sector sets and the
Jaccard overlap of the top-3 stage sets, the unions involved are never
empty (so no division by zero occurs and rational division never hits the
0-denominator convention), every score lies in [0, 1], and an investor
profile scored against itself gives exactly 1 when its sector and stage
sets are non-empty. -/
theorem c4_similarity_scores (df : List Event) (name : String) (tS tT : Finset String)
    (h : (expandInvestors df).filter (fun st => containsCI st.investor name) ≠ [])
    (htS : tS = top3 (((expandInvestors df).filter
      (fun st => containsCI st.investor name)).map (fun st => st.vertical)))
    (htT : tT = top3 (((expandInvestors df).filter
      (fun st => containsCI st.investor name)).map (fun st => st.round))) :
    (∀ r ∈ scoredInvestors (expandInvestors df) tS tT,
      r.similarity = similarity_score tS tT
          (top3 ((stakesOf (expandInvestors df) r.investor).map (fun st => st.vertical)))
          (top3 ((stakesOf (expandInvestors df) r.investor).map (fun st => st.round))) ∧
      0 ≤ r.similarity ∧ r.similarity ≤ 1 ∧
      (tS ∪ top3 ((stakesOf (expandInvestors df) r.investor).map
        (fun st => st.vertical))).Nonempty ∧
      (tT ∪ top3 ((stakesOf (expandInvestors df) r.investor).map
        (fun st => st.round))).Nonempty) ∧
    tS.Nonempty ∧ tT.Nonempty ∧ similarity_score tS tT tS tT = 1 := by
  have hmapS : ((expandInvestors df).filter
      (fun st => containsCI st.investor name)).map (fun st => st.vertical) ≠ [] := by
    rw [Ne, List.map_eq_nil_iff]
    exact h
  have hmapT : ((expandInvestors df).filter
      (fun st => containsCI st.investor name)).map (fun st => st.round) ≠ [] := by
    rw [Ne, List.map_eq_nil_iff]
    exact h
  have htSne : tS.Nonempty := htS ▸ top3_nonempty _ hmapS
  have htTne : tT.Nonempty := htT ▸ top3_nonempty _ hmapT
  refine ⟨?_, htSne, htTne, ?_⟩
  · intro r hr
    unfold scoredInvestors at hr
    rw [List.mem_map] at hr
    obtain ⟨i, hi, rfl⟩ := hr
    refine ⟨rfl, ?_, ?_, ?_, ?_⟩
    · exact (similarity_score_bounds _ _ _ _).1
    · exact (similarity_score_bounds _ _ _ _).2
    · obtain ⟨x, hx⟩ := htSne
      exact ⟨x, Finset.mem_union_left _ hx⟩
    · obtain ⟨x, hx⟩ := htTne
      exact ⟨x, Finset.mem_union_left _ hx⟩
  · unfold similarity_score
    rw [jaccard_self tS htSne, jaccard_self tT htTne]
    norm_num

/-- Witness for C4 at the query "softbank": the target sector set is
non-empty and its self-score is 1. -/
theorem c4_witness :
    (top3 (((expandInvestors dfQueries).filter
      (fun st => containsCI st.investor "softbank")).map (fun st => st.vertical))).Nonempty ∧
    similarity_score
      (top3 (((expandInvestors dfQueries).filter
        (fun st => containsCI st.investor "softbank")).map (fun st => st.vertical)))
      (top3 (((expandInvestors dfQueries).filter
        (fun st => containsCI st.investor "softbank")).map (fun st => st.round)))
      (top3 (((expandInvestors dfQueries).filter
        (fun st => containsCI st.investor "softbank")).map (fun st => st.vertical)))
      (top3 (((expandInvestors dfQueries).filter
        (fun st => containsCI st.investor "softbank")).map (fun st => st.round))) = 1 := by
  have h := c4_similarity_scores dfQueries "softbank" _ _ (by decide) rfl rfl
  exact ⟨h.2.1, h.2.2.2⟩

end StartupIntel
